import Mathlib

/-
Verification of the tool-discovery/caching layer, the tool-invocation adapter,
the conversation thread store and the streaming response renderer of
mcp-client-cli (src/mcp_client_cli/cli.py), as a shallow embedding.

Time is modelled in whole minutes as an `Int` (the code compares
`datetime.now() - cached_time` against `timedelta(hours=CACHE_EXPIRY_HOURS)`).
The filesystem cache directory is modelled as an association list from cache
key to parsed file content; the SQLite `last_conversation` table is modelled
as the list of its `thread_id` rows.
-/

/-- `StdioServerParameters`: launch command, ordered argument list, and
environment overrides, identifying one MCP tool server. -/
structure ServerParameters where
  command : String
  args : List String
  env : List (String × String)
deriving DecidableEq

/-- `types.Tool`: one capability schema — name, description, and an opaque
input-schema descriptor, cached verbatim. -/
structure ToolSchema where
  name : String
  description : String
  inputSchema : String
deriving DecidableEq

/-- Python `str.replace("/", "-")` for the one-character pattern used in the
cache key: every '/' becomes '-'. -/
def replaceSlashes (s : String) : String :=
  ⟨s.data.map (fun c => if c = '/' then '-' else c)⟩

/-- The cache-key expression appearing verbatim in both `get_cached_tools`
(cli.py line 49) and `save_tools_cache` (cli.py line 70):
`f"{server_param.command}-{'-'.join(server_param.args)}".replace("/", "-")`. -/
def cache_key (server_param : ServerParameters) : String :=
  replaceSlashes (server_param.command ++ "-" ++ String.intercalate "-" server_param.args)

/-- `CACHE_EXPIRY_HOURS = 24` (cli.py line 32). -/
def CACHE_EXPIRY_HOURS : Int := 24

/-- The parsed state of one cache file: a well-formed JSON document
`\x7b"cached_at": ..., "tools": [...]\x7d`, or contents on which `json.loads`,
the `"cached_at"` key access, `datetime.fromisoformat`, or `types.Tool(**tool)`
raises. -/
inductive CacheFileContent where
  | wellFormed (cached_at : Int) (tools : List ToolSchema)
  | malformed
deriving DecidableEq

/-- The on-disk cache directory: association from cache key to file content;
the most recent write for a key shadows older entries. -/
structure CacheDir where
  files : List (String × CacheFileContent)
deriving DecidableEq

/-- Reading the cache file for key `k`; `none` means the file does not exist. -/
def CacheDir.read (d : CacheDir) (k : String) : Option CacheFileContent :=
  d.files.lookup k

/-- `cache_file.write_text(...)`: (over)write the file for key `k`. -/
def CacheDir.write (d : CacheDir) (k : String) (c : CacheFileContent) : CacheDir :=
  ⟨(k, c) :: d.files⟩

/-- The exception propagating out of `get_cached_tools` when the existing cache
file fails to parse (there is no try/except around lines 55-61). -/
inductive CacheReadError where
  | parseFailure
deriving DecidableEq

/-- `get_cached_tools` (cli.py lines 39-61): if the cache file does not exist,
return `None`; otherwise parse it (a parse failure raises, uncaught); if the
entry is older than `CACHE_EXPIRY_HOURS`, return `None`; otherwise return the
cached tool list. -/
def get_cached_tools (dir : CacheDir) (now : Int) (server_param : ServerParameters) :
    Except CacheReadError (Option (List ToolSchema)) :=
  match dir.read (cache_key server_param) with
  | none => .ok none
  | some .malformed => .error .parseFailure
  | some (.wellFormed cached_at tools) =>
    if now - cached_at > CACHE_EXPIRY_HOURS * 60 then .ok none
    else .ok (some tools)

/-- `save_tools_cache` (cli.py lines 63-77): write the whole cache file for this
server's key with `cached_at = now` and the full tool list. -/
def save_tools_cache (dir : CacheDir) (now : Int) (server_param : ServerParameters)
    (tools : List ToolSchema) : CacheDir :=
  dir.write (cache_key server_param) (.wellFormed now tools)

/-- Helper equation: reading a key backed by a well-formed file is the expiry
check on its timestamp. -/
theorem get_cached_tools_wellFormed (cache : CacheDir) (now T : Int)
    (sp : ServerParameters) (tools : List ToolSchema)
    (h : cache.read (cache_key sp) = some (.wellFormed T tools)) :
    get_cached_tools cache now sp =
      if now - T > CACHE_EXPIRY_HOURS * 60 then .ok none else .ok (some tools) := by
  unfold get_cached_tools
  rw [h]

/-- Helper equation: reading a missing key yields `None`. -/
theorem get_cached_tools_missing (cache : CacheDir) (now : Int) (sp : ServerParameters)
    (h : cache.read (cache_key sp) = none) :
    get_cached_tools cache now sp = .ok none := by
  unfold get_cached_tools
  rw [h]

/-- Helper equation: reading a key backed by a malformed file raises. -/
theorem get_cached_tools_malformed (cache : CacheDir) (now : Int) (sp : ServerParameters)
    (h : cache.read (cache_key sp) = some .malformed) :
    get_cached_tools cache now sp = .error .parseFailure := by
  unfold get_cached_tools
  rw [h]

/-- C1 (counterexample): a cache file that exists for the server's key but is
malformed makes `get_cached_tools` raise a parse error to its caller instead of
returning `None`: there is no try/except around the `json.loads` call. -/
theorem c1_counterexample :
    CacheDir.read ⟨[("srv-", CacheFileContent.malformed)]⟩ (cache_key ⟨"srv", [], []⟩) =
      some CacheFileContent.malformed ∧
    get_cached_tools ⟨[("srv-", CacheFileContent.malformed)]⟩ 0 ⟨"srv", [], []⟩ =
      .error .parseFailure := by
  constructor
  · decide
  · rfl

/-- C1 (amended): a missing cache file makes `get_cached_tools` return `None`,
but an existing cache file whose contents are corrupt or unparsable makes it
raise the parse failure to its caller; discovery does not fall back to a live
fetch in that case. -/
theorem c1_cache_read_failure (cache : CacheDir) (now : Int) (sp : ServerParameters) :
    (cache.read (cache_key sp) = none → get_cached_tools cache now sp = .ok none) ∧
    (cache.read (cache_key sp) = some .malformed →
      get_cached_tools cache now sp = .error .parseFailure) :=
  ⟨fun h => get_cached_tools_missing cache now sp h,
   fun h => get_cached_tools_malformed cache now sp h⟩

/-- Concrete instantiation of `c1_cache_read_failure`: an empty cache directory
reads as absent, and a malformed file for the key raises. -/
theorem c1_witness :
    get_cached_tools ⟨[]⟩ 0 ⟨"srv", [], []⟩ = .ok none ∧
    get_cached_tools ⟨[("srv-", CacheFileContent.malformed)]⟩ 0 ⟨"srv", [], []⟩ =
      .error .parseFailure :=
  ⟨(c1_cache_read_failure ⟨[]⟩ 0 ⟨"srv", [], []⟩).1 (by decide),
   (c1_cache_read_failure ⟨[("srv-", CacheFileContent.malformed)]⟩ 0 ⟨"srv", [], []⟩).2
     (by decide)⟩

/-- C3: a well-formed cache entry with timestamp `T` is returned unchanged by a
read at `now` iff `now - T ≤ 24` hours (in particular at `T + 23h59m`), resolves
to `None` at `T + 24h01m`, and a missing entry also resolves to `None`, so the
caller cannot distinguish expired from missing. -/
theorem c3_cache_expiry (cache : CacheDir) (sp : ServerParameters) (T : Int)
    (tools : List ToolSchema)
    (h : cache.read (cache_key sp) = some (.wellFormed T tools)) :
    (∀ now : Int, get_cached_tools cache now sp = .ok (some tools) ↔
      now - T ≤ CACHE_EXPIRY_HOURS * 60) ∧
    get_cached_tools cache (T + (23 * 60 + 59)) sp = .ok (some tools) ∧
    get_cached_tools cache (T + (24 * 60 + 1)) sp = .ok none ∧
    (∀ (cache2 : CacheDir) (now2 : Int) (sp2 : ServerParameters),
      cache2.read (cache_key sp2) = none →
        get_cached_tools cache2 now2 sp2 = .ok none) := by
  have key : ∀ now : Int, get_cached_tools cache now sp =
      if now - T > CACHE_EXPIRY_HOURS * 60 then .ok none else .ok (some tools) :=
    fun now => get_cached_tools_wellFormed cache now T sp tools h
  refine ⟨fun now => ?_, ?_, ?_, fun cache2 now2 sp2 h2 => get_cached_tools_missing _ _ _ h2⟩
  · rw [key now]
    unfold CACHE_EXPIRY_HOURS
    split_ifs with hgt
    · constructor
      · intro habs
        exact absurd habs (by simp)
      · intro hle
        omega
    · simp
      omega
  · rw [key]
    unfold CACHE_EXPIRY_HOURS
    split_ifs with hgt
    · omega
    · rfl
  · rw [key]
    unfold CACHE_EXPIRY_HOURS
    split_ifs with hgt
    · rfl
    · omega

/-- Concrete instantiation of `c3_cache_expiry`: an entry cached at minute 0 is
returned at minute 1439 and absent at minute 1441. -/
theorem c3_witness :
    get_cached_tools ⟨[("srv-", .wellFormed 0 [⟨"t", "d", "s"⟩])]⟩ ((0 : Int) + (23 * 60 + 59))
      ⟨"srv", [], []⟩ = .ok (some [⟨"t", "d", "s"⟩]) ∧
    get_cached_tools ⟨[("srv-", .wellFormed 0 [⟨"t", "d", "s"⟩])]⟩ ((0 : Int) + (24 * 60 + 1))
      ⟨"srv", [], []⟩ = .ok none :=
  ⟨(c3_cache_expiry ⟨[("srv-", .wellFormed 0 [⟨"t", "d", "s"⟩])]⟩ ⟨"srv", [], []⟩ 0
      [⟨"t", "d", "s"⟩] (by decide)).2.1,
   (c3_cache_expiry ⟨[("srv-", .wellFormed 0 [⟨"t", "d", "s"⟩])]⟩ ⟨"srv", [], []⟩ 0
      [⟨"t", "d", "s"⟩] (by decide)).2.2.1⟩

/-- C4: the cache key depends only on `command` and `args`; two server
parameter records that agree on those derive the same key, the same cache read
and the same cache write, regardless of their `env` fields. -/
theorem c4_cache_key_ignores_env (p q : ServerParameters)
    (hc : p.command = q.command) (ha : p.args = q.args) :
    cache_key p = cache_key q ∧
    (∀ (cache : CacheDir) (now : Int),
      get_cached_tools cache now p = get_cached_tools cache now q) ∧
    (∀ (cache : CacheDir) (now : Int) (tools : List ToolSchema),
      save_tools_cache cache now p tools = save_tools_cache cache now q tools) := by
  have hk : cache_key p = cache_key q := by
    unfold cache_key
    rw [hc, ha]
  refine ⟨hk, fun cache now => ?_, fun cache now tools => ?_⟩
  · unfold get_cached_tools
    rw [hk]
  · unfold save_tools_cache
    rw [hk]

/-- Concrete instantiation of `c4_cache_key_ignores_env`: same command and args,
different env, same key. -/
theorem c4_witness :
    cache_key ⟨"npx", ["srv", "run"], [("PATH", "x")]⟩ =
      cache_key ⟨"npx", ["srv", "run"], []⟩ :=
  (c4_cache_key_ignores_env ⟨"npx", ["srv", "run"], [("PATH", "x")]⟩
    ⟨"npx", ["srv", "run"], []⟩ rfl rfl).1

/-- C10 (counterexample): the example pair given in the claim does not collide:
command "a" with args ["b"] derives key "a-b", while command "a-b" with args []
derives key "a-b-" (the f-string leaves a trailing separator when args is
empty). -/
theorem c10_counterexample :
    cache_key ⟨"a", ["b"], []⟩ = "a-b" ∧
    cache_key ⟨"a-b", [], []⟩ = "a-b-" ∧
    cache_key ⟨"a", ["b"], []⟩ ≠ cache_key ⟨"a-b", [], []⟩ := by
  refine ⟨by decide, by decide, by decide⟩

/-- C10 (amended): the key derivation is indeed not injective on
`(command, args)` — command "a" with args ["b", "c"] collides with command
"a-b" with args ["c"], and any "/" in a command or argument collides with "-"
— but the claim's first example pair derives distinct keys. -/
theorem c10_cache_key_not_injective :
    cache_key ⟨"a", ["b", "c"], []⟩ = cache_key ⟨"a-b", ["c"], []⟩ ∧
    cache_key ⟨"a/b", [], []⟩ = cache_key ⟨"a-b", [], []⟩ ∧
    (∃ p q : ServerParameters, p.command ≠ q.command ∧ p.args ≠ q.args ∧
      cache_key p = cache_key q) := by
  refine ⟨by decide, by decide, ⟨"a", ["b", "c"], []⟩, ⟨"a-b", ["c"], []⟩, ?_, ?_, by decide⟩
  · decide
  · decide

/-- `create_langchain_tool` (cli.py lines 79-112): pair one tool schema with
the server parameters used to reach it (the returned `McpTool`). -/
structure LangchainTool where
  schema : ToolSchema
  server : ServerParameters
deriving DecidableEq

/-- `create_langchain_tool tool_schema server_params` builds the adapter. -/
def create_langchain_tool (tool_schema : ToolSchema) (server_params : ServerParameters) :
    LangchainTool :=
  ⟨tool_schema, server_params⟩

/-- `convert_mcp_to_langchain_tools` (cli.py lines 114-143). `listTools` is the
oracle for `session.list_tools()` of a live server. The result carries the
converted tools, the cache directory after the run, and the list of servers for
which a live stdio session was opened, in processing order. The Python
truthiness test `if cached_tools:` treats both `None` and an empty list as a
miss. An exception from `get_cached_tools` propagates. -/
def convert_mcp_to_langchain_tools (listTools : ServerParameters → List ToolSchema)
    (now : Int) :
    List ServerParameters → CacheDir →
    Except CacheReadError (List LangchainTool × CacheDir × List ServerParameters)
  | [], cache => .ok ([], cache, [])
  | server_param :: rest, cache =>
    match get_cached_tools cache now server_param with
    | .error e => .error e
    | .ok (some (t :: ts)) =>
      match convert_mcp_to_langchain_tools listTools now rest cache with
      | .error e => .error e
      | .ok (ls, c, sessions) =>
        .ok ((t :: ts).map (fun s => create_langchain_tool s server_param) ++ ls, c, sessions)
    | .ok _ =>
      match convert_mcp_to_langchain_tools listTools now rest
          (save_tools_cache cache now server_param (listTools server_param)) with
      | .error e => .error e
      | .ok (ls, c, sessions) =>
        .ok ((listTools server_param).map (fun s => create_langchain_tool s server_param) ++ ls,
          c, server_param :: sessions)

/-- The live-session log of a discovery run, when the run did not raise. -/
def discoverySessions
    (r : Except CacheReadError (List LangchainTool × CacheDir × List ServerParameters)) :
    Option (List ServerParameters) :=
  match r with
  | .ok (_, _, sessions) => some sessions
  | .error _ => none

/-- Helper: writing one key leaves reads of every other key unchanged. -/
theorem get_cached_tools_write_ne (cache : CacheDir) (now now2 : Int)
    (sp sp2 : ServerParameters) (tools : List ToolSchema)
    (hk : cache_key sp2 ≠ cache_key sp) :
    get_cached_tools (save_tools_cache cache now2 sp tools) now sp2 =
      get_cached_tools cache now sp2 := by
  unfold get_cached_tools save_tools_cache CacheDir.write CacheDir.read
  simp only [List.lookup, beq_eq_false_iff_ne.mpr hk]

/-- Helper equation: the cache read depends on the server only through its
derived key. -/
theorem get_cached_tools_congr_key (cache : CacheDir) (now : Int)
    (p q : ServerParameters) (h : cache_key p = cache_key q) :
    get_cached_tools cache now p = get_cached_tools cache now q := by
  unfold get_cached_tools
  rw [h]

/-- Helper equation: the empty configuration converts to no tools, the same
cache, and no sessions. -/
theorem convert_nil (listTools : ServerParameters → List ToolSchema) (now : Int)
    (cache : CacheDir) :
    convert_mcp_to_langchain_tools listTools now [] cache = .ok ([], cache, []) :=
  rfl

/-- Helper equation: a head server whose cache lookup raises aborts the run. -/
theorem convert_cons_raise (listTools : ServerParameters → List ToolSchema) (now : Int)
    (q : ServerParameters) (rest : List ServerParameters) (cache : CacheDir)
    (e : CacheReadError) (hget : get_cached_tools cache now q = .error e) :
    convert_mcp_to_langchain_tools listTools now (q :: rest) cache = .error e := by
  unfold convert_mcp_to_langchain_tools
  rw [hget]

/-- Helper equation: a head server with a fresh nonempty hit contributes its
cached tools, leaves the cache untouched, and opens no session. -/
theorem convert_cons_hit (listTools : ServerParameters → List ToolSchema) (now : Int)
    (q : ServerParameters) (rest : List ServerParameters) (cache : CacheDir)
    (t : ToolSchema) (ts : List ToolSchema) (ls : List LangchainTool) (c : CacheDir)
    (ss : List ServerParameters)
    (hget : get_cached_tools cache now q = .ok (some (t :: ts)))
    (hrec : convert_mcp_to_langchain_tools listTools now rest cache = .ok (ls, c, ss)) :
    convert_mcp_to_langchain_tools listTools now (q :: rest) cache =
      .ok ((t :: ts).map (fun s => create_langchain_tool s q) ++ ls, c, ss) := by
  unfold convert_mcp_to_langchain_tools
  rw [hget, hrec]

/-- Helper equation: a fresh nonempty hit followed by a raising tail raises. -/
theorem convert_cons_hit_raise (listTools : ServerParameters → List ToolSchema) (now : Int)
    (q : ServerParameters) (rest : List ServerParameters) (cache : CacheDir)
    (t : ToolSchema) (ts : List ToolSchema) (e : CacheReadError)
    (hget : get_cached_tools cache now q = .ok (some (t :: ts)))
    (hrec : convert_mcp_to_langchain_tools listTools now rest cache = .error e) :
    convert_mcp_to_langchain_tools listTools now (q :: rest) cache = .error e := by
  unfold convert_mcp_to_langchain_tools
  rw [hget, hrec]

/-- Helper equation: a head server that misses (no entry, or a fresh entry
whose cached list is empty — `if cached_tools:` is falsy on both) opens one
session, writes the cache, and contributes the live tools. -/
theorem convert_cons_miss (listTools : ServerParameters → List ToolSchema) (now : Int)
    (q : ServerParameters) (rest : List ServerParameters) (cache : CacheDir)
    (ls : List LangchainTool) (c : CacheDir) (ss : List ServerParameters)
    (hget : get_cached_tools cache now q = .ok none ∨
      get_cached_tools cache now q = .ok (some []))
    (hrec : convert_mcp_to_langchain_tools listTools now rest
      (save_tools_cache cache now q (listTools q)) = .ok (ls, c, ss)) :
    convert_mcp_to_langchain_tools listTools now (q :: rest) cache =
      .ok ((listTools q).map (fun s => create_langchain_tool s q) ++ ls, c, q :: ss) := by
  rcases hget with hget | hget
  · unfold convert_mcp_to_langchain_tools
    rw [hget, hrec]
  · unfold convert_mcp_to_langchain_tools
    rw [hget, hrec]

/-- Helper equation: a missing head followed by a raising tail raises. -/
theorem convert_cons_miss_raise (listTools : ServerParameters → List ToolSchema) (now : Int)
    (q : ServerParameters) (rest : List ServerParameters) (cache : CacheDir)
    (e : CacheReadError)
    (hget : get_cached_tools cache now q = .ok none ∨
      get_cached_tools cache now q = .ok (some []))
    (hrec : convert_mcp_to_langchain_tools listTools now rest
      (save_tools_cache cache now q (listTools q)) = .error e) :
    convert_mcp_to_langchain_tools listTools now (q :: rest) cache = .error e := by
  rcases hget with hget | hget
  · unfold convert_mcp_to_langchain_tools
    rw [hget, hrec]
  · unfold convert_mcp_to_langchain_tools
    rw [hget, hrec]

/-- Helper: the session log of a completed run is a sublist of the configured
server list (a session is only ever opened for the server being processed). -/
theorem discovery_sessions_sublist (listTools : ServerParameters → List ToolSchema)
    (now : Int) :
    ∀ (servers : List ServerParameters) (cache : CacheDir)
      (tools : List LangchainTool) (c : CacheDir) (ss : List ServerParameters),
      convert_mcp_to_langchain_tools listTools now servers cache = .ok (tools, c, ss) →
      ss.Sublist servers := by
  intro servers
  induction servers with
  | nil =>
    intro cache tools c ss h
    rw [convert_nil] at h
    simp only [Except.ok.injEq, Prod.mk.injEq] at h
    obtain ⟨-, -, h3⟩ := h
    subst h3
    exact List.Sublist.refl []
  | cons q rest ih =>
    intro cache tools c ss h
    rcases hget : get_cached_tools cache now q with e | (_ | (_ | ⟨t, ts⟩))
    · rw [convert_cons_raise listTools now q rest cache e hget] at h
      exact Except.noConfusion h
    · rcases hrec : convert_mcp_to_langchain_tools listTools now rest
          (save_tools_cache cache now q (listTools q)) with e2 | ⟨ls, c2, ss2⟩
      · rw [convert_cons_miss_raise listTools now q rest cache e2 (Or.inl hget) hrec] at h
        exact Except.noConfusion h
      · rw [convert_cons_miss listTools now q rest cache ls c2 ss2 (Or.inl hget) hrec] at h
        simp only [Except.ok.injEq, Prod.mk.injEq] at h
        obtain ⟨-, -, h3⟩ := h
        subst h3
        exact (ih _ ls c2 ss2 hrec).cons₂ q
    · rcases hrec : convert_mcp_to_langchain_tools listTools now rest
          (save_tools_cache cache now q (listTools q)) with e2 | ⟨ls, c2, ss2⟩
      · rw [convert_cons_miss_raise listTools now q rest cache e2 (Or.inr hget) hrec] at h
        exact Except.noConfusion h
      · rw [convert_cons_miss listTools now q rest cache ls c2 ss2 (Or.inr hget) hrec] at h
        simp only [Except.ok.injEq, Prod.mk.injEq] at h
        obtain ⟨-, -, h3⟩ := h
        subst h3
        exact (ih _ ls c2 ss2 hrec).cons₂ q
    · rcases hrec : convert_mcp_to_langchain_tools listTools now rest cache with
        e2 | ⟨ls, c2, ss2⟩
      · rw [convert_cons_hit_raise listTools now q rest cache t ts e2 hget hrec] at h
        exact Except.noConfusion h
      · rw [convert_cons_hit listTools now q rest cache t ts ls c2 ss2 hget hrec] at h
        simp only [Except.ok.injEq, Prod.mk.injEq] at h
        obtain ⟨-, -, h3⟩ := h
        subst h3
        exact (ih cache ls c2 ss2 hrec).cons q

/-- Helper: a server whose key currently has a fresh entry with a nonempty
tool list never receives a live session in a completed run, whatever the rest
of the configuration hits or misses: a server sharing its key also hits and
never writes, and writes to other keys leave its entry untouched. -/
theorem convert_hit_no_session (listTools : ServerParameters → List ToolSchema)
    (now : Int) (sp : ServerParameters) :
    ∀ (servers : List ServerParameters) (cache : CacheDir)
      (tools : List LangchainTool) (c : CacheDir) (ss : List ServerParameters),
      (∃ t ts, get_cached_tools cache now sp = .ok (some (t :: ts))) →
      convert_mcp_to_langchain_tools listTools now servers cache = .ok (tools, c, ss) →
      sp ∉ ss := by
  intro servers
  induction servers with
  | nil =>
    intro cache tools c ss _ h
    rw [convert_nil] at h
    simp only [Except.ok.injEq, Prod.mk.injEq] at h
    obtain ⟨-, -, h3⟩ := h
    subst h3
    exact List.not_mem_nil sp
  | cons q rest ih =>
    intro cache tools c ss hsp h
    obtain ⟨t0, ts0, hsp0⟩ := hsp
    rcases hget : get_cached_tools cache now q with e | (_ | (_ | ⟨t, ts⟩))
    · rw [convert_cons_raise listTools now q rest cache e hget] at h
      exact Except.noConfusion h
    · have hkq : cache_key q ≠ cache_key sp := by
        intro hk
        have hc := get_cached_tools_congr_key cache now q sp hk
        rw [hget, hsp0] at hc
        simp at hc
      rcases hrec : convert_mcp_to_langchain_tools listTools now rest
          (save_tools_cache cache now q (listTools q)) with e2 | ⟨ls, c2, ss2⟩
      · rw [convert_cons_miss_raise listTools now q rest cache e2 (Or.inl hget) hrec] at h
        exact Except.noConfusion h
      · rw [convert_cons_miss listTools now q rest cache ls c2 ss2 (Or.inl hget) hrec] at h
        simp only [Except.ok.injEq, Prod.mk.injEq] at h
        obtain ⟨-, -, h3⟩ := h
        subst h3
        have hsp2 : get_cached_tools (save_tools_cache cache now q (listTools q)) now sp =
            .ok (some (t0 :: ts0)) := by
          rw [get_cached_tools_write_ne cache now now q sp (listTools q) (Ne.symm hkq)]
          exact hsp0
        intro hmem
        rcases List.mem_cons.mp hmem with hqe | hmem2
        · exact hkq ((congrArg cache_key hqe).symm)
        · exact ih _ ls c2 ss2 ⟨t0, ts0, hsp2⟩ hrec hmem2
    · have hkq : cache_key q ≠ cache_key sp := by
        intro hk
        have hc := get_cached_tools_congr_key cache now q sp hk
        rw [hget, hsp0] at hc
        simp at hc
      rcases hrec : convert_mcp_to_langchain_tools listTools now rest
          (save_tools_cache cache now q (listTools q)) with e2 | ⟨ls, c2, ss2⟩
      · rw [convert_cons_miss_raise listTools now q rest cache e2 (Or.inr hget) hrec] at h
        exact Except.noConfusion h
      · rw [convert_cons_miss listTools now q rest cache ls c2 ss2 (Or.inr hget) hrec] at h
        simp only [Except.ok.injEq, Prod.mk.injEq] at h
        obtain ⟨-, -, h3⟩ := h
        subst h3
        have hsp2 : get_cached_tools (save_tools_cache cache now q (listTools q)) now sp =
            .ok (some (t0 :: ts0)) := by
          rw [get_cached_tools_write_ne cache now now q sp (listTools q) (Ne.symm hkq)]
          exact hsp0
        intro hmem
        rcases List.mem_cons.mp hmem with hqe | hmem2
        · exact hkq ((congrArg cache_key hqe).symm)
        · exact ih _ ls c2 ss2 ⟨t0, ts0, hsp2⟩ hrec hmem2
    · rcases hrec : convert_mcp_to_langchain_tools listTools now rest cache with
        e2 | ⟨ls, c2, ss2⟩
      · rw [convert_cons_hit_raise listTools now q rest cache t ts e2 hget hrec] at h
        exact Except.noConfusion h
      · rw [convert_cons_hit listTools now q rest cache t ts ls c2 ss2 hget hrec] at h
        simp only [Except.ok.injEq, Prod.mk.injEq] at h
        obtain ⟨-, -, h3⟩ := h
        subst h3
        exact ih cache ls c2 ss2 ⟨t0, ts0, hsp0⟩ hrec

/-- Helper: a server that misses the current cache, occurs exactly once in the
configuration, and shares its key with no other configured server receives
exactly one live session in a completed run, whatever the others hit or miss. -/
theorem convert_miss_one_session (listTools : ServerParameters → List ToolSchema)
    (now : Int) (sp : ServerParameters) :
    ∀ (servers : List ServerParameters) (cache : CacheDir)
      (tools : List LangchainTool) (c : CacheDir) (ss : List ServerParameters),
      (get_cached_tools cache now sp = .ok none ∨
        get_cached_tools cache now sp = .ok (some [])) →
      servers.count sp = 1 →
      (∀ q ∈ servers, q ≠ sp → cache_key q ≠ cache_key sp) →
      convert_mcp_to_langchain_tools listTools now servers cache = .ok (tools, c, ss) →
      ss.count sp = 1 := by
  intro servers
  induction servers with
  | nil =>
    intro cache tools c ss _ hcount _ _
    simp at hcount
  | cons q rest ih =>
    intro cache tools c ss hmiss hcount hkeys h
    by_cases hq : q = sp
    · subst hq
      have hrest0 : rest.count q = 0 := by
        rw [List.count_cons_self] at hcount
        omega
      rcases hrec : convert_mcp_to_langchain_tools listTools now rest
          (save_tools_cache cache now q (listTools q)) with e2 | ⟨ls, c2, ss2⟩
      · rw [convert_cons_miss_raise listTools now q rest cache e2 hmiss hrec] at h
        exact Except.noConfusion h
      · rw [convert_cons_miss listTools now q rest cache ls c2 ss2 hmiss hrec] at h
        simp only [Except.ok.injEq, Prod.mk.injEq] at h
        obtain ⟨-, -, h3⟩ := h
        subst h3
        rw [List.count_cons_self]
        have hle := (discovery_sessions_sublist listTools now rest _ ls c2 ss2 hrec).count_le q
        omega
    · have hspq : sp ≠ q := fun he => hq he.symm
      have hkq : cache_key q ≠ cache_key sp := hkeys q (List.mem_cons_self q rest) hq
      have hcount2 : rest.count sp = 1 := by
        rw [List.count_cons_of_ne hspq] at hcount
        exact hcount
      have hkeys2 : ∀ r ∈ rest, r ≠ sp → cache_key r ≠ cache_key sp :=
        fun r hr => hkeys r (List.mem_cons_of_mem q hr)
      rcases hget : get_cached_tools cache now q with e | (_ | (_ | ⟨t, ts⟩))
      · rw [convert_cons_raise listTools now q rest cache e hget] at h
        exact Except.noConfusion h
      · rcases hrec : convert_mcp_to_langchain_tools listTools now rest
            (save_tools_cache cache now q (listTools q)) with e2 | ⟨ls, c2, ss2⟩
        · rw [convert_cons_miss_raise listTools now q rest cache e2 (Or.inl hget) hrec] at h
          exact Except.noConfusion h
        · rw [convert_cons_miss listTools now q rest cache ls c2 ss2 (Or.inl hget) hrec] at h
          simp only [Except.ok.injEq, Prod.mk.injEq] at h
          obtain ⟨-, -, h3⟩ := h
          subst h3
          rw [List.count_cons_of_ne hspq]
          have hmiss2 : get_cached_tools (save_tools_cache cache now q (listTools q)) now sp =
              .ok none ∨
              get_cached_tools (save_tools_cache cache now q (listTools q)) now sp =
              .ok (some []) := by
            rw [get_cached_tools_write_ne cache now now q sp (listTools q) (Ne.symm hkq)]
            exact hmiss
          exact ih _ ls c2 ss2 hmiss2 hcount2 hkeys2 hrec
      · rcases hrec : convert_mcp_to_langchain_tools listTools now rest
            (save_tools_cache cache now q (listTools q)) with e2 | ⟨ls, c2, ss2⟩
        · rw [convert_cons_miss_raise listTools now q rest cache e2 (Or.inr hget) hrec] at h
          exact Except.noConfusion h
        · rw [convert_cons_miss listTools now q rest cache ls c2 ss2 (Or.inr hget) hrec] at h
          simp only [Except.ok.injEq, Prod.mk.injEq] at h
          obtain ⟨-, -, h3⟩ := h
          subst h3
          rw [List.count_cons_of_ne hspq]
          have hmiss2 : get_cached_tools (save_tools_cache cache now q (listTools q)) now sp =
              .ok none ∨
              get_cached_tools (save_tools_cache cache now q (listTools q)) now sp =
              .ok (some []) := by
            rw [get_cached_tools_write_ne cache now now q sp (listTools q) (Ne.symm hkq)]
            exact hmiss
          exact ih _ ls c2 ss2 hmiss2 hcount2 hkeys2 hrec
      · rcases hrec : convert_mcp_to_langchain_tools listTools now rest cache with
          e2 | ⟨ls, c2, ss2⟩
        · rw [convert_cons_hit_raise listTools now q rest cache t ts e2 hget hrec] at h
          exact Except.noConfusion h
        · rw [convert_cons_hit listTools now q rest cache t ts ls c2 ss2 hget hrec] at h
          simp only [Except.ok.injEq, Prod.mk.injEq] at h
          obtain ⟨-, -, h3⟩ := h
          subst h3
          exact ih cache ls c2 ss2 hmiss hcount2 hkeys2 hrec

/-- C2 (amended): per-server session accounting of a completed discovery run,
valid in mixed configurations where other servers hit or miss arbitrarily.
A server whose key has a fresh (unexpired) cache entry with a nonempty tool
list receives zero live sessions — no network or process activity. A server
with no such entry (missing, expired, or fresh with an empty tool list, since
`if cached_tools:` treats an empty cached list as a miss) that occurs exactly
once in the configuration and shares its derived cache key with no other
configured server receives exactly one live session. -/
theorem c2_discovery_sessions (listTools : ServerParameters → List ToolSchema)
    (now : Int) (cache : CacheDir) (servers : List ServerParameters)
    (sp : ServerParameters) (tools : List LangchainTool) (c : CacheDir)
    (ss : List ServerParameters)
    (h : convert_mcp_to_langchain_tools listTools now servers cache = .ok (tools, c, ss)) :
    ((∃ t ts, get_cached_tools cache now sp = .ok (some (t :: ts))) → sp ∉ ss) ∧
    ((get_cached_tools cache now sp = .ok none ∨
        get_cached_tools cache now sp = .ok (some [])) →
      servers.count sp = 1 →
      (∀ q ∈ servers, q ≠ sp → cache_key q ≠ cache_key sp) →
      ss.count sp = 1) :=
  ⟨fun hhit => convert_hit_no_session listTools now sp servers cache tools c ss hhit h,
   fun hmiss hcount hkeys =>
     convert_miss_one_session listTools now sp servers cache tools c ss hmiss hcount hkeys h⟩

/-- Concrete instantiation of `c2_discovery_sessions` on a mixed
configuration: one server with a fresh nonempty entry and one with no entry;
the completed run's session log excludes the former and counts the latter
exactly once. -/
theorem c2_witness :
    (⟨"hit", [], []⟩ : ServerParameters) ∉ [(⟨"miss", [], []⟩ : ServerParameters)] ∧
    List.count (⟨"miss", [], []⟩ : ServerParameters)
      [(⟨"miss", [], []⟩ : ServerParameters)] = 1 :=
  ⟨(c2_discovery_sessions (fun _ => []) 0 ⟨[("hit-", .wellFormed 0 [⟨"t", "d", "s"⟩])]⟩
      [⟨"hit", [], []⟩, ⟨"miss", [], []⟩] ⟨"hit", [], []⟩
      [⟨⟨"t", "d", "s"⟩, ⟨"hit", [], []⟩⟩]
      ⟨[("miss-", .wellFormed 0 []), ("hit-", .wellFormed 0 [⟨"t", "d", "s"⟩])]⟩
      [⟨"miss", [], []⟩] rfl).1 ⟨⟨"t", "d", "s"⟩, [], rfl⟩,
   (c2_discovery_sessions (fun _ => []) 0 ⟨[("hit-", .wellFormed 0 [⟨"t", "d", "s"⟩])]⟩
      [⟨"hit", [], []⟩, ⟨"miss", [], []⟩] ⟨"miss", [], []⟩
      [⟨⟨"t", "d", "s"⟩, ⟨"hit", [], []⟩⟩]
      ⟨[("miss-", .wellFormed 0 []), ("hit-", .wellFormed 0 [⟨"t", "d", "s"⟩])]⟩
      [⟨"miss", [], []⟩] rfl).2 (Or.inl rfl) (by decide) (by decide)⟩

/-- C2 (counterexample): three concrete runs violating the claim as stated.
First, a server whose cache entry exists and is unexpired but holds an empty
tool list receives a live session despite its fresh cache entry. Second, of
two servers deriving the same cache key ("a/b" and "a-b" both derive "a-b-"),
the second has no cache entry at all before the run, yet receives zero live
sessions, because the first server's live fetch populates their shared key.
Third, a server listed twice with no cache entry receives two live sessions
rather than one when the live fetch returns no tools. -/
theorem c2_counterexample :
    CacheDir.read ⟨[("srv-", .wellFormed 0 [])]⟩ (cache_key ⟨"srv", [], []⟩) =
      some (.wellFormed 0 []) ∧
    ((0 : Int) - 0 ≤ CACHE_EXPIRY_HOURS * 60) ∧
    discoverySessions (convert_mcp_to_langchain_tools (fun _ => []) 0 [⟨"srv", [], []⟩]
      ⟨[("srv-", .wellFormed 0 [])]⟩) = some [⟨"srv", [], []⟩] ∧
    CacheDir.read ⟨[]⟩ (cache_key ⟨"a-b", [], []⟩) = none ∧
    discoverySessions (convert_mcp_to_langchain_tools (fun _ => [⟨"t", "d", "s"⟩]) 0
      [⟨"a/b", [], []⟩, ⟨"a-b", [], []⟩] ⟨[]⟩) = some [⟨"a/b", [], []⟩] ∧
    discoverySessions (convert_mcp_to_langchain_tools (fun _ => []) 0
      [⟨"srv", [], []⟩, ⟨"srv", [], []⟩] ⟨[]⟩) =
      some [⟨"srv", [], []⟩, ⟨"srv", [], []⟩] := by
  refine ⟨by decide, by decide, by decide, by decide, by decide, by decide⟩

/-- `ConversationManager.get_last_id` (cli.py lines 171-181). `rows` is the
list of `thread_id` values in the `last_conversation` table; `SELECT thread_id
FROM last_conversation LIMIT 1` yields its first element. `freshUuid` stands
for the value of `uuid.uuid4().hex`, a freshly minted random 128-bit token.
The result pairs the returned id with the table rows after the call: the body
only reads (its sole statements are `CREATE TABLE IF NOT EXISTS` and a
`SELECT`), so the rows are returned unchanged. -/
def get_last_id (rows : List String) (freshUuid : String) : String × List String :=
  match rows with
  | [] => (freshUuid, rows)
  | row :: _ => (row, rows)

/-- `ConversationManager._save_id` (cli.py lines 196-210): within one
transaction, `DELETE FROM last_conversation` then `INSERT` the new id. -/
def save_id (rows : List String) (thread_id : String) : List String :=
  let afterDelete := rows.filter (fun _ => false)
  afterDelete ++ [thread_id]

/-- C5: saving a thread id and then reading returns exactly that id, and after
any completed save the table holds exactly one row, whatever it held before. -/
theorem c5_save_then_get (rows : List String) (thread_id freshUuid : String) :
    (get_last_id (save_id rows thread_id) freshUuid).1 = thread_id ∧
    save_id rows thread_id = [thread_id] ∧
    (save_id rows thread_id).length = 1 := by
  have hs : save_id rows thread_id = [thread_id] := by
    simp [save_id]
  rw [hs]
  exact ⟨rfl, rfl, rfl⟩

/-- C6: on an empty table, `get_last_id` returns the freshly minted identifier,
persists nothing (the table still holds zero rows afterward), and in particular
the minted id is not present in the store after the call. -/
theorem c6_get_or_create_empty (freshUuid : String) :
    (get_last_id [] freshUuid).1 = freshUuid ∧
    (get_last_id [] freshUuid).2 = [] ∧
    freshUuid ∉ (get_last_id [] freshUuid).2 := by
  refine ⟨rfl, rfl, by simp [get_last_id]⟩

/-- `CallToolResult`: the value returned by one `session.call_tool` — the
`isError` flag and the (opaque) `content` payload. -/
structure CallToolResult where
  isError : Bool
  content : String
deriving DecidableEq

/-- `McpTool._arun` (cli.py lines 103-110): open a fresh session, initialize,
issue exactly one `call_tool`, and either raise `ToolException(result.content)`
when `result.isError` or return `result.content`. `server n` is the result the
server would report to the n-th `call_tool` of this invocation; the second
component counts how many `call_tool` requests the body issues (the body
contains a single un-looped call, so it consults only `server 0` and the count
is one on both paths — no retry). -/
def mcpTool_arun (server : Nat → CallToolResult) : Except String String × Nat :=
  let result := server 0
  if result.isError then (.error result.content, 1) else (.ok result.content, 1)

/-- C7: the invocation raises a `ToolException` carrying exactly the
server-reported payload iff the single call's result has `isError` set,
returns the result content otherwise, and issues exactly one call (no retry)
in either case. -/
theorem c7_invoke_error_iff (server : Nat → CallToolResult) :
    ((mcpTool_arun server).1 = .error (server 0).content ↔ (server 0).isError = true) ∧
    ((mcpTool_arun server).1 = .ok (server 0).content ↔ (server 0).isError = false) ∧
    (mcpTool_arun server).2 = 1 := by
  unfold mcpTool_arun
  cases h : (server 0).isError <;> simp [h]

/-- The value found at `tc.get("args")` of one tool call: a raw string, a
structured dict whose values are rendered through an f-string (modelled as
their rendered text), or anything else — including a missing key — which the
code renders as no argument lines at all. -/
inductive ToolArgs where
  | ofString (s : String)
  | ofDict (pairs : List (String × String))
  | otherValue
deriving DecidableEq

/-- One entry of `message.tool_calls` (a dict): optional `name`, optional
`error` string, and its `args` value. -/
structure ToolCall where
  name : Option String
  error : Option String
  args : ToolArgs
deriving DecidableEq

/-- The `lines` list built for one tool call (cli.py lines 313-324): the name
(or the `'Tool'` placeholder), an `Error:` line when `tc.get("error")` is
truthy (Python truthiness: a present, nonempty string), the `Args:` header,
and then the argument lines. -/
def toolCallLines (tc : ToolCall) : List String :=
  let lines := ["  " ++ tc.name.getD "Tool"]
  let lines := match tc.error with
    | some e => if e ≠ "" then lines ++ ["  Error: " ++ e] else lines
    | none => lines
  let lines := lines ++ ["  Args:"]
  match tc.args with
  | .ofString s => lines ++ ["    " ++ s]
  | .ofDict pairs => lines ++ pairs.map (fun p => "    " ++ p.1 ++ ": " ++ p.2)
  | .otherValue => lines

/-- Python truthiness of `tc.get("error")`: falsy when the key is missing or
the value is the empty string. -/
def errorTruthy (e : Option String) : Bool :=
  match e with
  | none => false
  | some s => decide (s ≠ "")

/-- The argument lines after the `Args:` header, by the shape of `args`. -/
def argLines (a : ToolArgs) : List String :=
  match a with
  | .ofString s => ["    " ++ s]
  | .ofDict pairs => pairs.map (fun p => "    " ++ p.1 ++ ": " ++ p.2)
  | .otherValue => []

/-- Whether a rendered line is an `Error:` line of a tool-call block. -/
def isErrorLine (l : String) : Bool :=
  "  Error:".data.isPrefixOf l.data

/-- One element of `content` when an `AIMessageChunk`'s content is a list: a
dict carrying a `"text"` field, or any other value (dict without the field, or
a non-dict). -/
inductive ContentItem where
  | dictWithText (text : String)
  | otherItem
deriving DecidableEq

/-- The `content` of an `AIMessageChunk`: a plain string, a structured list,
or some other shape. -/
inductive MsgContent where
  | ofString (s : String)
  | ofList (items : List ContentItem)
  | otherShape
deriving DecidableEq

/-- The last message of a value-stream snapshot: an `AIMessage` with its
`tool_calls` list, or any other message kind. -/
inductive ValuesMsg where
  | aiMessage (tool_calls : List ToolCall)
  | otherMessage
deriving DecidableEq

/-- One chunk of the agent's event stream, as the `async for` loop (cli.py
lines 290-325) discriminates it: a `("messages", ...)` tuple whose first
element may or may not be an `AIMessageChunk`, a dict containing
`"messages"`, a `("values", state)` tuple (represented by the last message of
its state), or any other value. -/
inductive Chunk where
  | messagesChunk (content : Option MsgContent)
  | finalDict
  | valuesChunk (lastMessage : ValuesMsg)
  | otherChunk
deriving DecidableEq

/-- The text flushed to stdout for one chunk, in flush order (cli.py lines
296-325). A plain-string delta is flushed as is; a structured list flushes the
`"text"` field of its first element when present; other shapes flush nothing.
A final-value dict flushes `print("\n")`, i.e. a blank-line separator. A
values tuple whose last message is an `AIMessage` with a nonempty
`tool_calls` list flushes the `Tool Calls:` header and one joined block per
tool call. -/
def renderStep (chunk : Chunk) : List String :=
  match chunk with
  | .messagesChunk none => []
  | .messagesChunk (some (.ofString s)) => [s]
  | .messagesChunk (some (.ofList (.dictWithText t :: _))) => [t]
  | .messagesChunk (some (.ofList _)) => []
  | .messagesChunk (some .otherShape) => []
  | .finalDict => ["\n\n"]
  | .valuesChunk (.aiMessage (tc :: tcs)) =>
    "\n\nTool Calls:\n" ::
      (tc :: tcs).map (fun t => String.intercalate "\n" (toolCallLines t) ++ "\n")
  | .valuesChunk _ => []
  | .otherChunk => []

/-- The whole rendered run: the loop consumes the stream in emission order and
flushes each chunk's output in place. -/
def render (chunks : List Chunk) : List String :=
  chunks.flatMap renderStep

/-- C8: a plain-string token delta is flushed immediately and unchanged; a
structured list whose first element carries a text field flushes exactly that
text; other structured shapes flush nothing and raise no error; output order
is exactly emission order (rendering distributes over concatenation of the
stream); and the concrete stream TokenDelta "Hello", TokenDelta " world",
FinalValue produces "Hello", " world", then the blank-line separator. -/
theorem c8_renderer_order :
    (∀ s : String, renderStep (.messagesChunk (some (.ofString s))) = [s]) ∧
    (∀ (t : String) (rest : List ContentItem),
      renderStep (.messagesChunk (some (.ofList (.dictWithText t :: rest)))) = [t]) ∧
    (renderStep (.messagesChunk (some (.ofList []))) = [] ∧
      (∀ rest : List ContentItem,
        renderStep (.messagesChunk (some (.ofList (.otherItem :: rest)))) = []) ∧
      renderStep (.messagesChunk (some .otherShape)) = [] ∧
      renderStep (.messagesChunk none) = []) ∧
    (∀ xs ys : List Chunk, render (xs ++ ys) = render xs ++ render ys) ∧
    render [.messagesChunk (some (.ofString "Hello")),
      .messagesChunk (some (.ofString " world")), .finalDict] =
      ["Hello", " world", "\n\n"] := by
  refine ⟨fun s => rfl, fun t rest => rfl, ⟨rfl, fun rest => rfl, rfl, rfl⟩,
    fun xs ys => ?_, rfl⟩
  simp [render]

/-- C9 (counterexample): a tool call whose `error` field is present but the
empty string carries an error, yet its rendered block contains no `Error:`
line — the code tests `tc.get("error")` for truthiness, not presence. -/
theorem c9_counterexample :
    (ToolCall.mk (some "mytool") (some "") .otherValue).error ≠ none ∧
    toolCallLines ⟨some "mytool", some "", .otherValue⟩ = ["  mytool", "  Args:"] ∧
    (toolCallLines ⟨some "mytool", some "", .otherValue⟩).any isErrorLine = false := by
  refine ⟨by decide, by decide, by decide⟩

/-- C9 (amended): the block for one tool call is exactly the tool's name (or
the `'Tool'` placeholder), then an `Error:` line iff the call carries a
truthy — present and nonempty — error string, then the `Args:` header
followed by one indented line per argument pair, or the raw argument string
when arguments are not structured, or nothing when there is no structured
value; in particular the name line and the `Args:` line always appear, and a
truthy error always contributes its `Error:` line. -/
theorem c9_tool_call_block (tc : ToolCall) :
    toolCallLines tc =
      ["  " ++ tc.name.getD "Tool"] ++
      (if errorTruthy tc.error then ["  Error: " ++ tc.error.getD ""] else []) ++
      ["  Args:"] ++ argLines tc.args ∧
    ("  " ++ tc.name.getD "Tool") ∈ toolCallLines tc ∧
    "  Args:" ∈ toolCallLines tc ∧
    (errorTruthy tc.error = true →
      ("  Error: " ++ tc.error.getD "") ∈ toolCallLines tc) := by
  obtain ⟨name, error, args⟩ := tc
  have hd : toolCallLines ⟨name, error, args⟩ =
      ["  " ++ name.getD "Tool"] ++
      (if errorTruthy error then ["  Error: " ++ error.getD ""] else []) ++
      ["  Args:"] ++ argLines args := by
    cases error with
    | none => cases args <;> simp [toolCallLines, errorTruthy, argLines]
    | some e =>
      by_cases he : e = "" <;> cases args <;>
        simp [toolCallLines, errorTruthy, argLines, he]
  refine ⟨hd, ?_, ?_, fun htr => ?_⟩
  · rw [hd]
    simp
  · rw [hd]
    simp
  · rw [hd]
    simp [htr]

/-- Concrete instantiation of `c9_tool_call_block`: a truthy error produces
its `Error:` line in the rendered block. -/
theorem c9_witness :
    ("  Error: " ++ (some "boom" : Option String).getD "") ∈
      toolCallLines ⟨some "shell", some "boom", .ofDict [("cmd", "ls")]⟩ :=
  (c9_tool_call_block ⟨some "shell", some "boom", .ofDict [("cmd", "ls")]⟩).2.2.2 (by decide)
